import Mathlib

/-!
Verification of the paywalls-net/access CLI: a shallow embedding of the
device-authorization registration flow (src/cli/register.ts), the HTTP
transport (src/api-client.ts) and the configuration loader (src/config.ts),
with theorems about the claims of the specification.

Conventions of the embedding:
* JavaScript `undefined`-able values become `Option`.
* The remote API and the filesystem are inputs: a run of the flow is
  parameterised by the device-code result and by the list of token-endpoint
  results, one per poll iteration.
* Side effects (network calls, sleeps, credential writes, console output)
  become an explicit event trace, and process termination becomes an
  `Outcome` value.
-/

namespace Access

/-! ## Configuration loader (src/config.ts) -/

/-- Environment variables read by the configuration loader. -/
structure Env where
  PAYWALLS_API_KEY : Option String
  PAYWALLS_BASE_URL : Option String
  PAYWALLS_ACCOUNT_ID : Option String
deriving DecidableEq, Repr

/-- Resolved configuration, mirroring interface PaywallsConfig. -/
structure PaywallsConfig where
  apiKey : String
  accountId : Option String
  baseUrl : String
deriving DecidableEq, Repr

/-- Partial configuration, mirroring TypeScript Partial of PaywallsConfig. -/
structure PartialConfig where
  apiKey : Option String := none
  accountId : Option String := none
  baseUrl : Option String := none
deriving DecidableEq, Repr

/-- Parsed contents of the credentials file; each JSON field may be absent. -/
structure CredFile where
  api_key : Option String
  account_id : Option String
  base_url : Option String
deriving DecidableEq, Repr

def DEFAULT_BASE_URL : String := "https://api.paywalls.net"

/-- Embedding of loadCredentialsFile: the filesystem is `Option CredFile`,
`none` when the file is missing or unparseable (the catch branch returns
an empty object, i.e. every field undefined). -/
def loadCredentialsFile (fs : Option CredFile) : PartialConfig :=
  match fs with
  | none => {}
  | some d => { apiKey := d.api_key, accountId := d.account_id, baseUrl := d.base_url }

/-- Embedding of loadConfig: each field resolves through the JavaScript
nullish-coalescing chain overrides, then environment variable, then
credentials file, then the literal default. -/
def loadConfig (overrides : PartialConfig) (env : Env) (fs : Option CredFile) :
    PaywallsConfig :=
  let file := loadCredentialsFile fs
  { apiKey := overrides.apiKey.getD (env.PAYWALLS_API_KEY.getD (file.apiKey.getD ""))
    baseUrl := overrides.baseUrl.getD
      (env.PAYWALLS_BASE_URL.getD (file.baseUrl.getD DEFAULT_BASE_URL))
    accountId :=
      match overrides.accountId with
      | some a => some a
      | none =>
        match env.PAYWALLS_ACCOUNT_ID with
        | some a => some a
        | none => file.accountId }

/-- Embedding of hasCredentials: loadConfig with no overrides, then test
that the resolved apiKey is non-empty. -/
def hasCredentials (env : Env) (fs : Option CredFile) : Bool :=
  (loadConfig {} env fs).apiKey.length > 0

/-- Credentials as written by saveCredentials. -/
structure Credentials where
  api_key : String
  account_id : String
  base_url : String
deriving DecidableEq, Repr

/-! ## CLI flag parsing (src/cli/util.ts) -/

/-- A flag value: parseFlags stores a string for key=value and `true` for
a bare flag. -/
inductive FlagVal
  | str (s : String)
  | boolean (b : Bool)
deriving DecidableEq, Repr

/-- Split a character list at the first occurrence of the equals sign,
mirroring arg.indexOf and the two slices. -/
def splitFirstEq : List Char → Option (List Char × List Char)
  | [] => none
  | c :: rest =>
    if c = '=' then some ([], rest)
    else (splitFirstEq rest).map (fun p => (c :: p.1, p.2))

/-- Whether the argument starts with a double dash, on its characters. -/
def isFlagArg (arg : String) : Bool :=
  match arg.data with
  | '-' :: '-' :: _ => true
  | _ => false

/-- Embedding of parseFlags: later assignments are later in the list, so a
lookup takes the last matching entry, as JavaScript object assignment does.
The slices of the source are taken on the character list. -/
def parseFlags (args : List String) : List (String × FlagVal) :=
  args.foldl
    (fun flags arg =>
      if isFlagArg arg then
        let rest := arg.data.drop 2
        match splitFirstEq rest with
        | some (k, v) => flags ++ [(⟨k⟩, FlagVal.str ⟨v⟩)]
        | none => flags ++ [(⟨rest⟩, FlagVal.boolean true)]
      else flags)
    []

/-- Look up a flag: the last assignment wins. -/
def getFlag (flags : List (String × FlagVal)) (k : String) : Option FlagVal :=
  (flags.reverse.find? (fun p => p.1 = k)).map (fun p => p.2)

/-- Strict-equality test flags.k === true used by register. -/
def getBoolFlag (flags : List (String × FlagVal)) (k : String) : Bool :=
  match getFlag flags k with
  | some (.boolean true) => true
  | _ => false

/-- The base-url flag as used by register: the value when it is a string,
undefined otherwise. -/
def getStrFlag (flags : List (String × FlagVal)) (k : String) : Option String :=
  match getFlag flags k with
  | some (.str s) => some s
  | _ => none

/-- Terminal environment read by isHeadless. -/
structure TermEnv where
  stdoutIsTTY : Bool
  CI : Option String
  CODESPACES : Option String
  SSH_CONNECTION : Option String
deriving DecidableEq, Repr

/-- Embedding of isHeadless. -/
def isHeadless (t : TermEnv) : Bool :=
  !t.stdoutIsTTY || t.CI.isSome || t.CODESPACES.isSome || t.SSH_CONNECTION.isSome

/-! ## String containment (used to state message properties) -/

def startsWithChars : List Char → List Char → Bool
  | _, [] => true
  | [], _ :: _ => false
  | c :: cs, p :: ps => c = p && startsWithChars cs ps

def containsChars : List Char → List Char → Bool
  | [], pat => pat.isEmpty
  | c :: cs, pat => startsWithChars (c :: cs) pat || containsChars cs pat

/-- Substring test on strings. -/
def strContains (s pat : String) : Bool :=
  containsChars s.data pat.data

/-! ## Register flow (src/cli/register.ts) -/

/-- Body of a successful device-code response. -/
structure DeviceCodeResponse where
  device_code : String
  user_code : String
  verification_uri : String
  verification_uri_complete : String
  expires_in : Nat
  interval : Nat
deriving DecidableEq, Repr

/-- Result of the device-code POST, as seen by register: the call may throw
(network error), return a non-ok response, or return the parsed body. -/
inductive DeviceCodeResult
  | netErr
  | failure (status : Nat)
  | ok (d : DeviceCodeResponse)
deriving DecidableEq, Repr

/-- Result of one token-exchange POST: the call may throw (network error),
return ok with the success body, or return a non-ok response with an HTTP
status and an error code. -/
inductive TokenResult
  | netErr
  | success (api_key : String) (account_id : String)
  | failure (status : Nat) (error : String)
deriving DecidableEq, Repr

/-- One observable effect of a run of `register`. Structured console output
is kept structured: one constructor per console.log site that the claims
mention. -/
inductive Event
  | deviceCall
  | tokenCall
  | sleep (ms : Nat)
  | save (c : Credentials)
  | jsonPending (user_code : String) (verification_uri_complete : String) (expires_in : Nat)
  | jsonAuthorized (api_key : String) (account_id : String)
  | jsonError (error : String) (resolution : String)
  | printError (s : String)
  | printInfo (s : String)
  | printSuccess (s : String)
  | progressMark (s : String)
  | browse (url : String) (incognito : Bool)
deriving DecidableEq, Repr

/-- How a run of `register` ends: process.exit with a code, a normal return
after authorization, or the supplied token-result trace ran out while the
loop was still polling (the loop itself never ends without a terminal
response or a signal). `exhausted` records the interval the loop would use
next. -/
inductive Outcome
  | exited (code : Nat)
  | returned
  | exhausted (intervalMs : Nat)
deriving DecidableEq, Repr

/-- Decrement the countdown to the interrupt signal. -/
def sigDec : Option Nat → Option Nat
  | none => none
  | some n => some (n - 1)

/-- Events of the SIGINT handler onAbort, which exits the process. -/
def cancelEvents (jsonMode : Bool) (intervalMs : Nat) : List Event :=
  Event.sleep intervalMs ::
    (if jsonMode then [] else [Event.printInfo "Registration cancelled."])

/-- Embedding of the polling loop of register (step 4). `sig = some k`
means SIGINT fires during the sleep of iteration `k` (counting from 0);
`none` means no interrupt. Each list element is the result of one
token-exchange POST; when the list runs out the run is `exhausted`. -/
def pollLoop (jsonMode : Bool) (baseUrl : String) :
    Option Nat → Nat → List TokenResult → List Event × Outcome
  | sig, intervalMs, [] =>
    if sig = some 0 then (cancelEvents jsonMode intervalMs, Outcome.exited 130)
    else ([], Outcome.exhausted intervalMs)
  | sig, intervalMs, r :: rest =>
    if sig = some 0 then (cancelEvents jsonMode intervalMs, Outcome.exited 130)
    else
        let pre := [Event.sleep intervalMs, Event.tokenCall]
        match r with
        | .netErr =>
          let run := pollLoop jsonMode baseUrl (sigDec sig) intervalMs rest
          (pre ++ (if jsonMode then [] else [Event.progressMark "!"]) ++ run.1, run.2)
        | .success api_key account_id =>
          (pre ++
            [Event.save ⟨api_key, account_id, baseUrl⟩] ++
            (if jsonMode then
              [Event.jsonAuthorized api_key account_id]
            else
              [Event.printSuccess "Authorized!",
               Event.printInfo ("  API Key:  " ++ api_key),
               Event.printInfo ("  Account:  " ++ account_id)]),
           Outcome.returned)
        | .failure status error =>
          if status = 428 ∧ error = "authorization_pending" then
            let run := pollLoop jsonMode baseUrl (sigDec sig) intervalMs rest
            (pre ++ (if jsonMode then [] else [Event.progressMark "."]) ++ run.1, run.2)
          else if status = 429 ∧ error = "slow_down" then
            let run := pollLoop jsonMode baseUrl (sigDec sig) (intervalMs + 5000) rest
            (pre ++ run.1, run.2)
          else if error = "expired_token" then
            (pre ++
              (if jsonMode then
                [Event.jsonError "Device code expired." "Run paywalls register again."]
              else
                [Event.printError "Device code expired. Run paywalls register again."]),
             Outcome.exited 1)
          else if error = "access_denied" then
            (pre ++
              (if jsonMode then
                [Event.jsonError "Authorization denied." "Contact support if this is unexpected."]
              else
                [Event.printError "Authorization denied. Contact support if this is unexpected."]),
             Outcome.exited 1)
          else
            (pre ++
              (if jsonMode then
                [Event.jsonError "Unexpected response." "Try again. Run paywalls register."]
              else
                [Event.printError ("Unexpected response (HTTP " ++ toString status ++ ").")]),
             Outcome.exited 1)

/-- The world a run of `register` interacts with: environment, terminal,
filesystem, the remote responses, and the moment (if any) the interrupt
signal fires. -/
structure World where
  env : Env
  term : TermEnv
  credFile : Option CredFile
  codeRes : DeviceCodeResult
  tokens : List TokenResult
  sigintAt : Option Nat

/-- Embedding of the register command: guard, config resolution,
device-code request, code display, browser launch, then the polling loop. -/
def register (args : List String) (w : World) : List Event × Outcome :=
  let flags := parseFlags args
  let jsonMode := getBoolFlag flags "json"
  let headless := getBoolFlag flags "headless" || isHeadless w.term
  let force := getBoolFlag flags "force"
  let incognito := getBoolFlag flags "incognito"
  if !force && hasCredentials w.env w.credFile then
    ((if jsonMode then
        [Event.jsonError "Credentials already exist." "Run paywalls register --force to overwrite."]
      else
        [Event.printError "Credentials already exist at the credentials path.",
         Event.printInfo "  Use --force to overwrite."]),
     Outcome.exited 1)
  else
    let config := loadConfig { baseUrl := getStrFlag flags "base-url" } w.env w.credFile
    let intro := if jsonMode then [] else [Event.printInfo "Registering device..."]
    match w.codeRes with
    | .netErr =>
      (intro ++ [Event.deviceCall] ++
        (if jsonMode then
          [Event.jsonError "Cannot reach API." "Check your internet connection and base URL."]
        else
          [Event.printError ("Cannot reach " ++ config.baseUrl ++ ".")]),
       Outcome.exited 1)
    | .failure status =>
      (intro ++ [Event.deviceCall] ++
        (if jsonMode then
          [Event.jsonError "Failed to initiate registration." "Try again later."]
        else
          [Event.printError ("Failed to initiate registration (HTTP " ++ toString status ++ ").")]),
       Outcome.exited 1)
    | .ok d =>
      let shown :=
        if jsonMode then
          [Event.jsonPending d.user_code d.verification_uri_complete d.expires_in]
        else
          [Event.printInfo ("Your code is: " ++ d.user_code),
           Event.printInfo ("  " ++ d.verification_uri_complete)]
      let browser := if !headless then [Event.browse d.verification_uri_complete incognito] else []
      let run := pollLoop jsonMode config.baseUrl w.sigintAt (d.interval * 1000) w.tokens
      (intro ++ [Event.deviceCall] ++ shown ++ browser ++ run.1, run.2)

/-! ## Trace observations -/

/-- Number of token-exchange POST calls in a trace. -/
def countTokenCalls (t : List Event) : Nat :=
  (t.filter (fun e => e = Event.tokenCall)).length

/-- Number of network calls of any kind in a trace. -/
def countNetCalls (t : List Event) : Nat :=
  (t.filter (fun e => e = Event.tokenCall ∨ e = Event.deviceCall)).length

/-- The credential writes of a trace, in order. -/
def savesOf (t : List Event) : List Credentials :=
  t.filterMap (fun e => match e with | .save c => some c | _ => none)

/-- The sleep durations of a trace, in order. -/
def sleepsOf (t : List Event) : List Nat :=
  t.filterMap (fun e => match e with | .sleep ms => some ms | _ => none)

/-- Whether some error output of the trace mentions the given words. -/
def mentions (t : List Event) (pat : String) : Bool :=
  t.any (fun e =>
    match e with
    | .jsonError err _ => strContains err pat
    | .printError s => strContains s pat
    | _ => false)

/-- A token result on which the loop keeps polling: a network error, an
authorization-pending response, or a slow-down response. -/
def continues : TokenResult → Bool
  | .netErr => true
  | .failure status error =>
    (status == 428 && error == "authorization_pending") ||
      (status == 429 && error == "slow_down")
  | .success _ _ => false

/-- Whether every element of the list lets the loop continue. -/
def allContinuing (ts : List TokenResult) : Bool :=
  ts.all continues

/-- Whether a token result is a slow-down directive. -/
def isSlowDown : TokenResult → Bool
  | .failure status error => status == 429 && error == "slow_down"
  | _ => false

/-- Number of slow-down responses in a list. -/
def slowCount (ts : List TokenResult) : Nat :=
  (ts.filter isSlowDown).length

/-- Whether a token result is a success. -/
def isSuccess : TokenResult → Bool
  | .success _ _ => true
  | _ => false

/-! ## API transport (src/api-client.ts) -/

/-- The request handed to fetch: url, method, headers and serialized body. -/
structure SentRequest where
  url : String
  method : String
  headers : List (String × String)
  body : Option String
deriving DecidableEq, Repr

/-- What fetch produces: a rejection (connection-level error) or a response
with a status, a content-type header (possibly absent), a JSON payload (the
value response.json would give, kept opaque), a text payload and a status
text. -/
inductive FetchResult
  | netErr
  | resp (status : Nat) (contentType : Option String) (jsonPayload : String)
      (textPayload : String) (statusText : String)
deriving DecidableEq, Repr

/-- The ok field of a fetch Response: status in the inclusive range 200-299. -/
def fetchOk (status : Nat) : Bool :=
  200 ≤ status && status ≤ 299

/-- The data field of an ApiResponse: parsed JSON, or raw text wrapped in an
object with an error field. -/
inductive ApiBody
  | parsedJson (payload : String)
  | wrappedText (error : String)
deriving DecidableEq, Repr

/-- Normalized result of a request, mirroring interface ApiResponse. -/
structure ApiResponse where
  ok : Bool
  status : Nat
  data : ApiBody
deriving DecidableEq, Repr

/-- The ApiClient class: it holds the config resolved by its constructor. -/
structure ApiClient where
  config : PaywallsConfig
deriving DecidableEq, Repr

/-- The ApiClient constructor: this.config = loadConfig(overrides). -/
def ApiClient.ofOverrides (overrides : PartialConfig) (env : Env)
    (fs : Option CredFile) : ApiClient :=
  ⟨loadConfig overrides env fs⟩

/-- Headers built by ApiClient.request: Content-Type always, Authorization
exactly when the configured apiKey is truthy (non-empty). -/
def ApiClient.headersFor (c : ApiClient) : List (String × String) :=
  [("Content-Type", "application/json")] ++
    (if c.config.apiKey ≠ "" then
      [("Authorization", "Bearer " ++ c.config.apiKey)]
    else [])

/-- Embedding of ApiClient.request: build the request, and turn the fetch
result into either a propagated failure (only for connection-level errors)
or a normalized ApiResponse (for every HTTP response, 2xx or not). -/
def ApiClient.request (c : ApiClient) (method path : String) (body : Option String)
    (net : FetchResult) : SentRequest × Except Unit ApiResponse :=
  let req : SentRequest :=
    { url := c.config.baseUrl ++ path, method := method,
      headers := c.headersFor, body := body }
  match net with
  | .netErr => (req, Except.error ())
  | .resp status contentType jsonPayload textPayload statusText =>
    let ct := contentType.getD ""
    let data :=
      if strContains ct "application/json" then ApiBody.parsedJson jsonPayload
      else ApiBody.wrappedText (if textPayload = "" then statusText else textPayload)
    (req, Except.ok { ok := fetchOk status, status := status, data := data })

/-- The Authorization header of a request, when present. -/
def authHeaderOf (req : SentRequest) : Option String :=
  (req.headers.find? (fun p => p.1 = "Authorization")).map (fun p => p.2)

/-! ## Spec-side configuration model (for comparison with loadConfig) -/

/-- Configuration resolution as the specification words it: a layered merge
of explicit override, then environment variables, then the dotenv file in
the current directory, then the credentials file, then the built-in default
base URL. The dotenv file supplies the same variables as the environment.
This definition follows the spec, not the source; it exists to be compared
with `loadConfig`, which the source defines without any dotenv layer. -/
def loadConfigSpec (overrides : PartialConfig) (env : Env) (dotenv : Env)
    (fs : Option CredFile) : PaywallsConfig :=
  let file := loadCredentialsFile fs
  { apiKey := overrides.apiKey.getD
      (env.PAYWALLS_API_KEY.getD (dotenv.PAYWALLS_API_KEY.getD (file.apiKey.getD "")))
    baseUrl := overrides.baseUrl.getD
      (env.PAYWALLS_BASE_URL.getD
        (dotenv.PAYWALLS_BASE_URL.getD (file.baseUrl.getD DEFAULT_BASE_URL)))
    accountId :=
      match overrides.accountId with
      | some a => some a
      | none =>
        match env.PAYWALLS_ACCOUNT_ID with
        | some a => some a
        | none =>
          match dotenv.PAYWALLS_ACCOUNT_ID with
          | some a => some a
          | none => file.accountId }

/-- An environment with no variable set. -/
def emptyEnv : Env :=
  { PAYWALLS_API_KEY := none, PAYWALLS_BASE_URL := none, PAYWALLS_ACCOUNT_ID := none }

/-- The sequence of sleep durations the spec prescribes: each iteration
waits the current interval, and a slow-down response adds 5000 ms to the
interval used by every later iteration. -/
def intervalsScan (i : Nat) : List TokenResult → List Nat
  | [] => []
  | r :: rs => i :: intervalsScan (i + (if isSlowDown r then 5000 else 0)) rs

/-- Whether an event announces authorization (the authorized record in
machine mode, the Authorized! line in human mode). -/
def isAuthEvent : Event → Bool
  | .jsonAuthorized _ _ => true
  | .printSuccess _ => true
  | _ => false

/-- Count of success banners in a trace. -/
def countAuthorized (t : List Event) : Nat :=
  (t.filter isAuthEvent).length

/-- The events `register` produces between a passed guard and the polling
loop, given a successful device-code response: intro line, device-code
call, code display and the browser launch. Factored out of `register` for
the statement of its run decomposition. -/
def registerPre (args : List String) (w : World) (d : DeviceCodeResponse) : List Event :=
  let flags := parseFlags args
  let jsonMode := getBoolFlag flags "json"
  let headless := getBoolFlag flags "headless" || isHeadless w.term
  let incognito := getBoolFlag flags "incognito"
  (if jsonMode then [] else [Event.printInfo "Registering device..."]) ++
    [Event.deviceCall] ++
    (if jsonMode then
      [Event.jsonPending d.user_code d.verification_uri_complete d.expires_in]
    else
      [Event.printInfo ("Your code is: " ++ d.user_code),
       Event.printInfo ("  " ++ d.verification_uri_complete)]) ++
    (if !headless then [Event.browse d.verification_uri_complete incognito] else [])

/-! ## Sample inputs for concrete runs -/

/-- An interactive terminal with no CI-style variables set. -/
def sampleTerm : TermEnv := ⟨true, none, none, none⟩

/-- A typical device-code response body. -/
def sampleDevice : DeviceCodeResponse := ⟨"dc", "uc", "vu", "vuc", 900, 1⟩

/-- The authorization-pending token response. -/
def pendingTok : TokenResult := .failure 428 "authorization_pending"

/-- The slow-down token response. -/
def slowTok : TokenResult := .failure 429 "slow_down"

/-- A run with two pending responses and then a success. -/
def sampleWorldC1 : World :=
  ⟨emptyEnv, sampleTerm, none, .ok sampleDevice,
    [pendingTok, pendingTok, .success "K" "A"], none⟩

/-- A run whose token responses all keep the loop polling. -/
def sampleWorldC2 : World :=
  ⟨emptyEnv, sampleTerm, none, .ok sampleDevice,
    [pendingTok, slowTok, .netErr, pendingTok], none⟩

/-- A run that would immediately succeed, behind an existing env API key. -/
def sampleWorldC3 : World :=
  ⟨⟨some "existing-key", none, none⟩, sampleTerm, none, .ok sampleDevice,
    [.success "K" "A"], none⟩

/-- A run whose second token response reports an expired device code. -/
def sampleWorldC4 : World :=
  ⟨emptyEnv, sampleTerm, none, .ok sampleDevice,
    [pendingTok, .failure 400 "expired_token", .success "K" "A"], none⟩

/-- A run interrupted by SIGINT at the second poll iteration. -/
def sampleWorldC5 : World :=
  ⟨emptyEnv, sampleTerm, none, .ok sampleDevice,
    [pendingTok, pendingTok, .success "K" "A"], some 1⟩

/-- A run whose first token response is an immediate success. -/
def sampleWorldC7 : World :=
  ⟨emptyEnv, sampleTerm, none, .ok sampleDevice,
    [.success "K" "A"], none⟩

/-! ## Trace observation lemmas -/

theorem countTokenCalls_append (s t : List Event) :
    countTokenCalls (s ++ t) = countTokenCalls s + countTokenCalls t := by
  simp [countTokenCalls, List.filter_append]

theorem countNetCalls_append (s t : List Event) :
    countNetCalls (s ++ t) = countNetCalls s + countNetCalls t := by
  simp [countNetCalls, List.filter_append]

theorem savesOf_append (s t : List Event) :
    savesOf (s ++ t) = savesOf s ++ savesOf t := by
  simp [savesOf, List.filterMap_append]

theorem sleepsOf_append (s t : List Event) :
    sleepsOf (s ++ t) = sleepsOf s ++ sleepsOf t := by
  simp [sleepsOf, List.filterMap_append]

theorem mentions_append (s t : List Event) (pat : String) :
    mentions (s ++ t) pat = (mentions s pat || mentions t pat) := by
  simp [mentions, List.any_append]

theorem countAuthorized_append (s t : List Event) :
    countAuthorized (s ++ t) = countAuthorized s + countAuthorized t := by
  simp [countAuthorized, List.filter_append]

/-! ## Step lemmas for the polling loop -/

theorem pollLoop_sig0 (j : Bool) (b : String) (i : Nat) (ts : List TokenResult) :
    pollLoop j b (some 0) i ts = (cancelEvents j i, Outcome.exited 130) := by
  cases ts <;> simp [pollLoop]

theorem pollLoop_nil (j : Bool) (b : String) (sig : Option Nat) (i : Nat)
    (h : sig ≠ some 0) : pollLoop j b sig i [] = ([], Outcome.exhausted i) := by
  simp [pollLoop, h]

theorem pollLoop_netErr (j : Bool) (b : String) (sig : Option Nat) (i : Nat)
    (rest : List TokenResult) (h : sig ≠ some 0) :
    pollLoop j b sig i (.netErr :: rest) =
      ([Event.sleep i, Event.tokenCall] ++
        (if j then [] else [Event.progressMark "!"]) ++
        (pollLoop j b (sigDec sig) i rest).1,
       (pollLoop j b (sigDec sig) i rest).2) := by
  simp [pollLoop, h]

theorem pollLoop_pending (j : Bool) (b : String) (sig : Option Nat) (i : Nat)
    (rest : List TokenResult) (h : sig ≠ some 0) :
    pollLoop j b sig i (.failure 428 "authorization_pending" :: rest) =
      ([Event.sleep i, Event.tokenCall] ++
        (if j then [] else [Event.progressMark "."]) ++
        (pollLoop j b (sigDec sig) i rest).1,
       (pollLoop j b (sigDec sig) i rest).2) := by
  simp [pollLoop, h]

theorem pollLoop_slow (j : Bool) (b : String) (sig : Option Nat) (i : Nat)
    (rest : List TokenResult) (h : sig ≠ some 0) :
    pollLoop j b sig i (.failure 429 "slow_down" :: rest) =
      ([Event.sleep i, Event.tokenCall] ++ (pollLoop j b (sigDec sig) (i + 5000) rest).1,
       (pollLoop j b (sigDec sig) (i + 5000) rest).2) := by
  simp [pollLoop, h]

theorem pollLoop_success (j : Bool) (b : String) (sig : Option Nat) (i : Nat)
    (k a : String) (rest : List TokenResult) (h : sig ≠ some 0) :
    pollLoop j b sig i (.success k a :: rest) =
      ([Event.sleep i, Event.tokenCall, Event.save ⟨k, a, b⟩] ++
        (if j then
          [Event.jsonAuthorized k a]
        else
          [Event.printSuccess "Authorized!",
           Event.printInfo ("  API Key:  " ++ k),
           Event.printInfo ("  Account:  " ++ a)]),
       Outcome.returned) := by
  simp [pollLoop, h]

theorem pollLoop_expired (j : Bool) (b : String) (sig : Option Nat) (i : Nat)
    (s : Nat) (rest : List TokenResult) (h : sig ≠ some 0) :
    pollLoop j b sig i (.failure s "expired_token" :: rest) =
      ([Event.sleep i, Event.tokenCall] ++
        (if j then
          [Event.jsonError "Device code expired." "Run paywalls register again."]
        else
          [Event.printError "Device code expired. Run paywalls register again."]),
       Outcome.exited 1) := by
  simp [pollLoop, h]

theorem pollLoop_denied (j : Bool) (b : String) (sig : Option Nat) (i : Nat)
    (s : Nat) (rest : List TokenResult) (h : sig ≠ some 0) :
    pollLoop j b sig i (.failure s "access_denied" :: rest) =
      ([Event.sleep i, Event.tokenCall] ++
        (if j then
          [Event.jsonError "Authorization denied." "Contact support if this is unexpected."]
        else
          [Event.printError "Authorization denied. Contact support if this is unexpected."]),
       Outcome.exited 1) := by
  simp [pollLoop, h]

/-! ## Structural lemmas for the polling loop -/

/-- A run on a wholly continuing prefix composes: the loop first produces
the prefix trace unchanged, then runs on the remainder with the interval
increased by 5000 per slow-down response of the prefix. -/
theorem pollLoop_continuing_decomp (j : Bool) (b : String)
    (ts1 ts2 : List TokenResult) (i : Nat) :
    allContinuing ts1 = true →
    pollLoop j b none i (ts1 ++ ts2) =
      ((pollLoop j b none i ts1).1 ++
        (pollLoop j b none (i + 5000 * slowCount ts1) ts2).1,
       (pollLoop j b none (i + 5000 * slowCount ts1) ts2).2) := by
  induction ts1 generalizing i with
  | nil =>
    intro _
    simp [pollLoop, slowCount]
  | cons r rest ih =>
    intro h
    simp only [allContinuing, List.all_cons, Bool.and_eq_true] at h
    obtain ⟨hr, hrest⟩ := h
    have hrest' : allContinuing rest = true := hrest
    cases r with
    | netErr =>
      rw [List.cons_append, pollLoop_netErr _ _ _ _ _ (by simp),
        pollLoop_netErr j b none i rest (by simp)]
      simp only [sigDec]
      rw [ih _ hrest']
      simp [slowCount, isSlowDown, List.append_assoc]
    | success k a => simp [continues] at hr
    | failure s e =>
      simp only [continues, Bool.or_eq_true, Bool.and_eq_true, beq_iff_eq] at hr
      rcases hr with ⟨rfl, rfl⟩ | ⟨rfl, rfl⟩
      · rw [List.cons_append, pollLoop_pending _ _ _ _ _ (by simp),
          pollLoop_pending j b none i rest (by simp)]
        simp only [sigDec]
        rw [ih _ hrest']
        simp [slowCount, isSlowDown, List.append_assoc]
      · rw [List.cons_append, pollLoop_slow _ _ _ _ _ (by simp),
          pollLoop_slow j b none i rest (by simp)]
        simp only [sigDec]
        rw [ih _ hrest']
        have harith : i + 5000 + 5000 * slowCount rest =
            i + 5000 * slowCount (TokenResult.failure 429 "slow_down" :: rest) := by
          simp [slowCount, isSlowDown]
          ring
        rw [harith]
        simp [List.append_assoc]

/-- On a wholly continuing trace the loop makes one token call per response,
never writes credentials, never authorizes, sleeps the scanned intervals and
ends exhausted with the accumulated interval. -/
theorem pollLoop_continuing_stats (j : Bool) (b : String)
    (ts : List TokenResult) (i : Nat) :
    allContinuing ts = true →
    countTokenCalls (pollLoop j b none i ts).1 = ts.length ∧
    savesOf (pollLoop j b none i ts).1 = [] ∧
    countAuthorized (pollLoop j b none i ts).1 = 0 ∧
    sleepsOf (pollLoop j b none i ts).1 = intervalsScan i ts ∧
    (pollLoop j b none i ts).2 = Outcome.exhausted (i + 5000 * slowCount ts) := by
  induction ts generalizing i with
  | nil =>
    intro _
    simp [pollLoop, slowCount, countTokenCalls, savesOf, countAuthorized, sleepsOf,
      intervalsScan]
  | cons r rest ih =>
    intro h
    simp only [allContinuing, List.all_cons, Bool.and_eq_true] at h
    obtain ⟨hr, hrest⟩ := h
    have hrest' : allContinuing rest = true := hrest
    cases r with
    | netErr =>
      rw [pollLoop_netErr j b none i rest (by simp)]
      simp only [sigDec]
      obtain ⟨h1, h2, h3, h4, h5⟩ := ih i hrest'
      refine ⟨?_, ?_, ?_, ?_, ?_⟩
      · cases j <;> simp [countTokenCalls] at h1 ⊢ <;> omega
      · cases j <;> simp [savesOf] at h2 ⊢ <;> exact h2
      · cases j <;> simp [countAuthorized, isAuthEvent] at h3 ⊢ <;> exact h3
      · cases j <;> simp [sleepsOf, intervalsScan, isSlowDown] at h4 ⊢ <;> exact h4
      · simp [slowCount, isSlowDown] at h5 ⊢
        exact h5
    | success k a => simp [continues] at hr
    | failure s e =>
      simp only [continues, Bool.or_eq_true, Bool.and_eq_true, beq_iff_eq] at hr
      rcases hr with ⟨rfl, rfl⟩ | ⟨rfl, rfl⟩
      · rw [pollLoop_pending j b none i rest (by simp)]
        simp only [sigDec]
        obtain ⟨h1, h2, h3, h4, h5⟩ := ih i hrest'
        refine ⟨?_, ?_, ?_, ?_, ?_⟩
        · cases j <;> simp [countTokenCalls] at h1 ⊢ <;> omega
        · cases j <;> simp [savesOf] at h2 ⊢ <;> exact h2
        · cases j <;> simp [countAuthorized, isAuthEvent] at h3 ⊢ <;> exact h3
        · cases j <;> simp [sleepsOf, intervalsScan, isSlowDown] at h4 ⊢ <;> exact h4
        · simp [slowCount, isSlowDown] at h5 ⊢
          exact h5
      · rw [pollLoop_slow j b none i rest (by simp)]
        simp only [sigDec]
        obtain ⟨h1, h2, h3, h4, h5⟩ := ih (i + 5000) hrest'
        refine ⟨?_, ?_, ?_, ?_, ?_⟩
        · simp [countTokenCalls] at h1 ⊢
          omega
        · simp [savesOf] at h2 ⊢
          exact h2
        · simp [countAuthorized, isAuthEvent] at h3 ⊢
          exact h3
        · simp [sleepsOf, intervalsScan, isSlowDown] at h4 ⊢
          exact h4
        · simp [slowCount, isSlowDown] at h5 ⊢
          rw [h5]
          congr 1
          ring

theorem pollLoop_unknown (j : Bool) (b : String) (sig : Option Nat) (i : Nat)
    (s : Nat) (e : String) (rest : List TokenResult) (h : sig ≠ some 0)
    (h1 : ¬(s = 428 ∧ e = "authorization_pending"))
    (h2 : ¬(s = 429 ∧ e = "slow_down"))
    (h3 : e ≠ "expired_token") (h4 : e ≠ "access_denied") :
    pollLoop j b sig i (.failure s e :: rest) =
      ([Event.sleep i, Event.tokenCall] ++
        (if j then
          [Event.jsonError "Unexpected response." "Try again. Run paywalls register."]
        else
          [Event.printError ("Unexpected response (HTTP " ++ toString s ++ ").")]),
       Outcome.exited 1) := by
  simp [pollLoop, h, h1, h2, h3, h4]

theorem chainHeadLe {a b : Nat} {l : List Nat} (hab : a ≤ b)
    (h : List.Chain' (· ≤ ·) (b :: l)) : List.Chain' (· ≤ ·) (a :: l) := by
  cases l with
  | nil => simp
  | cons c l =>
    rw [List.chain'_cons] at h ⊢
    exact ⟨le_trans hab h.1, h.2⟩

/-- The waits of any run never decrease, whatever the responses: starting
the scan at the initial interval, the sleep durations form a monotone
chain. -/
theorem pollLoop_sleeps_chain (j : Bool) (b : String) (ts : List TokenResult) :
    ∀ sig i, List.Chain' (· ≤ ·) (i :: sleepsOf (pollLoop j b sig i ts).1) := by
  induction ts with
  | nil =>
    intro sig i
    by_cases hs : sig = some 0
    · subst hs
      rw [pollLoop_sig0]
      cases j <;> simp [cancelEvents, sleepsOf, List.chain'_cons]
    · rw [pollLoop_nil j b sig i hs]
      simp [sleepsOf]
  | cons r rest ih =>
    intro sig i
    by_cases hs : sig = some 0
    · subst hs
      rw [pollLoop_sig0]
      cases j <;> simp [cancelEvents, sleepsOf, List.chain'_cons]
    · cases r with
      | netErr =>
        rw [pollLoop_netErr j b sig i rest hs]
        have hrec := ih (sigDec sig) i
        cases j <;> simp [sleepsOf, List.chain'_cons] at hrec ⊢ <;> exact hrec
      | success key acc =>
        rw [pollLoop_success j b sig i key acc rest hs]
        cases j <;> simp [sleepsOf, List.chain'_cons]
      | failure s e =>
        by_cases hp : s = 428 ∧ e = "authorization_pending"
        · obtain ⟨rfl, rfl⟩ := hp
          rw [pollLoop_pending j b sig i rest hs]
          have hrec := ih (sigDec sig) i
          cases j <;> simp [sleepsOf, List.chain'_cons] at hrec ⊢ <;> exact hrec
        · by_cases hsd : s = 429 ∧ e = "slow_down"
          · obtain ⟨rfl, rfl⟩ := hsd
            rw [pollLoop_slow j b sig i rest hs]
            have hrec := chainHeadLe (by omega : i ≤ i + 5000) (ih (sigDec sig) (i + 5000))
            simp [sleepsOf, List.chain'_cons] at hrec ⊢
            exact hrec
          · by_cases he : e = "expired_token"
            · subst he
              rw [pollLoop_expired j b sig i s rest hs]
              cases j <;> simp [sleepsOf, List.chain'_cons]
            · by_cases hd : e = "access_denied"
              · subst hd
                rw [pollLoop_denied j b sig i s rest hs]
                cases j <;> simp [sleepsOf, List.chain'_cons]
              · rw [pollLoop_unknown j b sig i s e rest hs hp hsd he hd]
                cases j <;> simp [sleepsOf, List.chain'_cons]

/-- Without a success response the loop never writes credentials, whatever
the interrupt timing and interval. -/
theorem pollLoop_no_success_saves (j : Bool) (b : String) (ts : List TokenResult) :
    ∀ sig i, ts.all (fun r => !isSuccess r) = true →
      savesOf (pollLoop j b sig i ts).1 = [] := by
  induction ts with
  | nil =>
    intro sig i _
    by_cases hs : sig = some 0
    · subst hs
      rw [pollLoop_sig0]
      cases j <;> simp [cancelEvents, savesOf]
    · rw [pollLoop_nil j b sig i hs]
      simp [savesOf]
  | cons r rest ih =>
    intro sig i h
    simp only [List.all_cons, Bool.and_eq_true] at h
    obtain ⟨hr, hrest⟩ := h
    have hrest' : rest.all (fun r => !isSuccess r) = true := hrest
    by_cases hs : sig = some 0
    · subst hs
      rw [pollLoop_sig0]
      cases j <;> simp [cancelEvents, savesOf]
    · cases r with
      | success key acc => simp [isSuccess] at hr
      | netErr =>
        rw [pollLoop_netErr j b sig i rest hs]
        have hrec := ih (sigDec sig) i hrest'
        cases j <;> simp [savesOf] at hrec ⊢ <;> exact hrec
      | failure s e =>
        by_cases hp : s = 428 ∧ e = "authorization_pending"
        · obtain ⟨rfl, rfl⟩ := hp
          rw [pollLoop_pending j b sig i rest hs]
          have hrec := ih (sigDec sig) i hrest'
          cases j <;> simp [savesOf] at hrec ⊢ <;> exact hrec
        · by_cases hsd : s = 429 ∧ e = "slow_down"
          · obtain ⟨rfl, rfl⟩ := hsd
            rw [pollLoop_slow j b sig i rest hs]
            have hrec := ih (sigDec sig) (i + 5000) hrest'
            simp [savesOf] at hrec ⊢
            exact hrec
          · by_cases he : e = "expired_token"
            · subst he
              rw [pollLoop_expired j b sig i s rest hs]
              cases j <;> simp [savesOf]
            · by_cases hd : e = "access_denied"
              · subst hd
                rw [pollLoop_denied j b sig i s rest hs]
                cases j <;> simp [savesOf]
              · rw [pollLoop_unknown j b sig i s e rest hs hp hsd he hd]
                cases j <;> simp [savesOf]

/-- If the interrupt fires at iteration `k` and the first `k` responses all
keep the loop polling, the run exits with status 130 and writes nothing. -/
theorem pollLoop_sigint (j : Bool) (b : String) (k : Nat) :
    ∀ ts : List TokenResult, ∀ i, k ≤ ts.length →
      allContinuing (ts.take k) = true →
      (pollLoop j b (some k) i ts).2 = Outcome.exited 130 ∧
      savesOf (pollLoop j b (some k) i ts).1 = [] := by
  induction k with
  | zero =>
    intro ts i _ _
    rw [pollLoop_sig0]
    cases j <;> simp [cancelEvents, savesOf]
  | succ k ih =>
    intro ts i hlen hcont
    cases ts with
    | nil => simp at hlen
    | cons r rest =>
      have hne : (some (k + 1) : Option Nat) ≠ some 0 := by simp
      rw [List.take_succ_cons] at hcont
      simp only [allContinuing, List.all_cons, Bool.and_eq_true] at hcont
      obtain ⟨hr, hrest⟩ := hcont
      have hrest' : allContinuing (rest.take k) = true := hrest
      have hlen' : k ≤ rest.length := by
        simp only [List.length_cons] at hlen
        omega
      have hsd : sigDec (some (k + 1)) = some k := by simp [sigDec]
      cases r with
      | success key acc => simp [continues] at hr
      | netErr =>
        rw [pollLoop_netErr j b _ i rest hne, hsd]
        obtain ⟨o1, o2⟩ := ih rest i hlen' hrest'
        refine ⟨by simpa using o1, ?_⟩
        cases j <;> simp [savesOf] at o2 ⊢ <;> exact o2
      | failure s e =>
        simp only [continues, Bool.or_eq_true, Bool.and_eq_true, beq_iff_eq] at hr
        rcases hr with ⟨rfl, rfl⟩ | ⟨rfl, rfl⟩
        · rw [pollLoop_pending j b _ i rest hne, hsd]
          obtain ⟨o1, o2⟩ := ih rest i hlen' hrest'
          refine ⟨by simpa using o1, ?_⟩
          cases j <;> simp [savesOf] at o2 ⊢ <;> exact o2
        · rw [pollLoop_slow j b _ i rest hne, hsd]
          obtain ⟨o1, o2⟩ := ih rest (i + 5000) hlen' hrest'
          refine ⟨by simpa using o1, ?_⟩
          simp [savesOf] at o2 ⊢
          exact o2

theorem allContinuing_replicate_pending (N : Nat) :
    allContinuing
      (List.replicate N (TokenResult.failure 428 "authorization_pending")) = true := by
  simp only [allContinuing, List.all_eq_true]
  intro x hx
  rw [List.eq_of_mem_replicate hx]
  decide

theorem slowCount_replicate_pending (N : Nat) :
    slowCount (List.replicate N (TokenResult.failure 428 "authorization_pending")) = 0 := by
  induction N with
  | zero => rfl
  | succ n ih =>
    simp only [List.replicate_succ, slowCount, isSlowDown, List.filter_cons] at ih ⊢
    simpa using ih

/-! ## Decomposition of a register run that passes the guard -/

/-- With no pre-existing credentials and a successful device-code call,
a register run is its preamble followed by the polling loop, started in the
mode, base URL, interrupt timing and interval the command computes. -/
theorem register_ok_eq (args : List String) (w : World) (d : DeviceCodeResponse)
    (hguard : (!getBoolFlag (parseFlags args) "force" &&
      hasCredentials w.env w.credFile) = false)
    (hcode : w.codeRes = DeviceCodeResult.ok d) :
    register args w =
      (registerPre args w d ++
        (pollLoop (getBoolFlag (parseFlags args) "json")
          (loadConfig { baseUrl := getStrFlag (parseFlags args) "base-url" }
            w.env w.credFile).baseUrl
          w.sigintAt (d.interval * 1000) w.tokens).1,
       (pollLoop (getBoolFlag (parseFlags args) "json")
          (loadConfig { baseUrl := getStrFlag (parseFlags args) "base-url" }
            w.env w.credFile).baseUrl
          w.sigintAt (d.interval * 1000) w.tokens).2) := by
  simp [register, registerPre, hguard, hcode]

/-- The register preamble performs no token call, no credential write, no
authorization banner, no sleep and no error output. -/
theorem registerPre_stats (args : List String) (w : World) (d : DeviceCodeResponse) :
    countTokenCalls (registerPre args w d) = 0 ∧
    savesOf (registerPre args w d) = [] ∧
    countAuthorized (registerPre args w d) = 0 ∧
    sleepsOf (registerPre args w d) = [] ∧
    ∀ pat, mentions (registerPre args w d) pat = false := by
  cases hj : getBoolFlag (parseFlags args) "json" <;>
    cases hh : (getBoolFlag (parseFlags args) "headless" || isHeadless w.term) <;>
    simp [registerPre, hj, hh, countTokenCalls, savesOf, countAuthorized, isAuthEvent,
      sleepsOf, mentions]

/-- In machine mode the preamble emits the pending status record. -/
theorem registerPre_jsonPending (args : List String) (w : World) (d : DeviceCodeResponse)
    (hj : getBoolFlag (parseFlags args) "json" = true) :
    Event.jsonPending d.user_code d.verification_uri_complete d.expires_in ∈
      registerPre args w d := by
  cases hh : (getBoolFlag (parseFlags args) "headless" || isHeadless w.term) <;>
    simp [registerPre, hj, hh]

/-! ## Claims -/

/-- C1: in a run whose device-code request succeeds and whose token
endpoint answers N consecutive authorization-pending responses followed by
one success, register issues exactly N+1 token-exchange calls, announces
authorization exactly once, writes the credentials exactly once, and
returns right after the first success — whatever responses would have
followed are never requested. -/
theorem register_pending_then_success_calls (args : List String) (w : World)
    (d : DeviceCodeResponse) (N : Nat) (key acc : String) (rest : List TokenResult)
    (hcred : hasCredentials w.env w.credFile = false)
    (hcode : w.codeRes = DeviceCodeResult.ok d)
    (hsig : w.sigintAt = none)
    (htok : w.tokens =
      List.replicate N (TokenResult.failure 428 "authorization_pending") ++
        TokenResult.success key acc :: rest) :
    countTokenCalls (register args w).1 = N + 1 ∧
    countAuthorized (register args w).1 = 1 ∧
    savesOf (register args w).1 =
      [⟨key, acc,
        (loadConfig { baseUrl := getStrFlag (parseFlags args) "base-url" }
          w.env w.credFile).baseUrl⟩] ∧
    (register args w).2 = Outcome.returned := by
  obtain ⟨p1, p2, p3, p4, p5⟩ := registerPre_stats args w d
  obtain ⟨s1, s2, s3, s4, s5⟩ :=
    pollLoop_continuing_stats (getBoolFlag (parseFlags args) "json")
      (loadConfig { baseUrl := getStrFlag (parseFlags args) "base-url" }
        w.env w.credFile).baseUrl
      (List.replicate N (TokenResult.failure 428 "authorization_pending"))
      (d.interval * 1000) (allContinuing_replicate_pending N)
  have hdec :=
    pollLoop_continuing_decomp (getBoolFlag (parseFlags args) "json")
      (loadConfig { baseUrl := getStrFlag (parseFlags args) "base-url" }
        w.env w.credFile).baseUrl
      (List.replicate N (TokenResult.failure 428 "authorization_pending"))
      (TokenResult.success key acc :: rest)
      (d.interval * 1000) (allContinuing_replicate_pending N)
  have hsucc :=
    pollLoop_success (getBoolFlag (parseFlags args) "json")
      (loadConfig { baseUrl := getStrFlag (parseFlags args) "base-url" }
        w.env w.credFile).baseUrl
      none
      (d.interval * 1000 +
        5000 * slowCount (List.replicate N (TokenResult.failure 428 "authorization_pending")))
      key acc rest (by simp)
  rw [register_ok_eq args w d (by simp [hcred]) hcode, hsig, htok, hdec, hsucc]
  refine ⟨?_, ?_, ?_, ?_⟩
  · rw [countTokenCalls_append]
    cases hj : getBoolFlag (parseFlags args) "json" <;>
      simp only [hj] at p1 s1 ⊢ <;>
      rw [countTokenCalls_append, p1, s1] <;>
      simp [countTokenCalls]
  · rw [countAuthorized_append]
    cases hj : getBoolFlag (parseFlags args) "json" <;>
      simp only [hj] at p3 s3 ⊢ <;>
      rw [countAuthorized_append, p3, s3] <;>
      simp [countAuthorized, isAuthEvent]
  · rw [savesOf_append]
    cases hj : getBoolFlag (parseFlags args) "json" <;>
      simp only [hj] at p2 s2 ⊢ <;>
      rw [savesOf_append, p2, s2] <;>
      simp [savesOf]
  · rfl

/-- Concrete run for C1: two pending responses, then success. -/
theorem register_pending_then_success_calls_witness :
    hasCredentials emptyEnv none = false ∧
    countTokenCalls (register ["--json"] sampleWorldC1).1 = 2 + 1 ∧
    countAuthorized (register ["--json"] sampleWorldC1).1 = 1 ∧
    (register ["--json"] sampleWorldC1).2 = Outcome.returned := by
  have h := register_pending_then_success_calls ["--json"] sampleWorldC1 sampleDevice
    2 "K" "A" [] (by decide) rfl rfl (by decide)
  exact ⟨by decide, h.1, h.2.1, h.2.2.2⟩

/-- C2: every slow-down response raises the interval used by all later
sleeps by exactly 5000 ms: the sleeps of a continuing run follow the
cumulative scan, the run stays pending with the accumulated interval, and
the waits of any run whatsoever never decrease. -/
theorem register_slow_down_backoff (j : Bool) (b : String) (i : Nat)
    (ts : List TokenResult) (h : allContinuing ts = true) :
    (∀ ts' : List TokenResult, ∀ sig : Option Nat, ∀ i' : Nat,
      List.Chain' (· ≤ ·) (sleepsOf (pollLoop j b sig i' ts').1)) ∧
    sleepsOf (pollLoop j b none i ts).1 = intervalsScan i ts ∧
    (pollLoop j b none i ts).2 = Outcome.exhausted (i + 5000 * slowCount ts) := by
  refine ⟨?_, ?_, ?_⟩
  · intro ts' sig i'
    exact (pollLoop_sleeps_chain j b ts' sig i').tail
  · exact (pollLoop_continuing_stats j b ts i h).2.2.2.1
  · exact (pollLoop_continuing_stats j b ts i h).2.2.2.2

/-- Concrete run for C2: pending, slow-down, network error, pending. -/
theorem register_slow_down_backoff_witness :
    allContinuing [pendingTok, slowTok, TokenResult.netErr, pendingTok] = true ∧
    sleepsOf
      (pollLoop true "x" none 1000
        [pendingTok, slowTok, TokenResult.netErr, pendingTok]).1 =
      [1000, 1000, 6000, 6000] ∧
    (pollLoop true "x" none 1000
      [pendingTok, slowTok, TokenResult.netErr, pendingTok]).2 =
      Outcome.exhausted 6000 := by
  have h := register_slow_down_backoff true "x" 1000
    [pendingTok, slowTok, TokenResult.netErr, pendingTok] (by decide)
  refine ⟨by decide, ?_, ?_⟩
  · rw [h.2.1]
    decide
  · rw [h.2.2]
    decide

theorem string_length_pos_iff (s : String) : 0 < s.length ↔ s ≠ "" := by
  cases s with
  | mk data =>
    constructor
    · intro h heq
      rw [heq] at h
      simp at h
    · intro h
      rcases Nat.eq_zero_or_pos data.length with h0 | h0
      · rw [List.length_eq_zero] at h0
        subst h0
        exact absurd rfl h
      · exact h0

/-- With credentials resolved and no force flag parsed true, register takes
the guard branch: exit 1, no network call. -/
theorem register_guard_exits (args : List String) (w : World)
    (hcred : hasCredentials w.env w.credFile = true)
    (hforce : getBoolFlag (parseFlags args) "force" = false) :
    (register args w).2 = Outcome.exited 1 ∧
    countNetCalls (register args w).1 = 0 := by
  cases hj : getBoolFlag (parseFlags args) "json" <;>
    simp [register, hcred, hforce, hj, countNetCalls]

/-- C3: when credentials already exist and the force flag is not supplied,
register exits with status 1 before any network call is made. -/
theorem register_already_registered_guard (args : List String) (w : World)
    (hcred : hasCredentials w.env w.credFile = true)
    (hforce : getBoolFlag (parseFlags args) "force" = false) :
    (register args w).2 = Outcome.exited 1 ∧
    countNetCalls (register args w).1 = 0 :=
  register_guard_exits args w hcred hforce

/-- Concrete run for C3: an environment API key, no force flag. -/
theorem register_already_registered_guard_witness :
    hasCredentials sampleWorldC3.env sampleWorldC3.credFile = true ∧
    getBoolFlag (parseFlags ["--json"]) "force" = false ∧
    (register ["--json"] sampleWorldC3).2 = Outcome.exited 1 ∧
    countNetCalls (register ["--json"] sampleWorldC3).1 = 0 := by
  have h := register_already_registered_guard ["--json"] sampleWorldC3
    (by decide) (by decide)
  exact ⟨by decide, by decide, h.1, h.2⟩

/-- C4: a token response carrying expired_token or access_denied after any
run of continuing responses ends the flow at once with exit status 1 — the
count of token calls stops at the iteration that saw the error — and the
output mentions expired, respectively denied. -/
theorem register_expired_denied_terminal (args : List String) (w : World)
    (d : DeviceCodeResponse) (s : Nat) (ts1 rest : List TokenResult)
    (hcred : hasCredentials w.env w.credFile = false)
    (hcode : w.codeRes = DeviceCodeResult.ok d)
    (hsig : w.sigintAt = none)
    (hcont : allContinuing ts1 = true) :
    (w.tokens = ts1 ++ TokenResult.failure s "expired_token" :: rest →
      (register args w).2 = Outcome.exited 1 ∧
      countTokenCalls (register args w).1 = ts1.length + 1 ∧
      mentions (register args w).1 "expired" = true) ∧
    (w.tokens = ts1 ++ TokenResult.failure s "access_denied" :: rest →
      (register args w).2 = Outcome.exited 1 ∧
      countTokenCalls (register args w).1 = ts1.length + 1 ∧
      mentions (register args w).1 "denied" = true) := by
  obtain ⟨p1, p2, p3, p4, p5⟩ := registerPre_stats args w d
  obtain ⟨s1, s2, s3, s4, s5⟩ :=
    pollLoop_continuing_stats (getBoolFlag (parseFlags args) "json")
      (loadConfig { baseUrl := getStrFlag (parseFlags args) "base-url" }
        w.env w.credFile).baseUrl
      ts1 (d.interval * 1000) hcont
  constructor
  · intro htok
    have hdec :=
      pollLoop_continuing_decomp (getBoolFlag (parseFlags args) "json")
        (loadConfig { baseUrl := getStrFlag (parseFlags args) "base-url" }
          w.env w.credFile).baseUrl
        ts1 (TokenResult.failure s "expired_token" :: rest)
        (d.interval * 1000) hcont
    have hstep :=
      pollLoop_expired (getBoolFlag (parseFlags args) "json")
        (loadConfig { baseUrl := getStrFlag (parseFlags args) "base-url" }
          w.env w.credFile).baseUrl
        none (d.interval * 1000 + 5000 * slowCount ts1) s rest (by simp)
    rw [register_ok_eq args w d (by simp [hcred]) hcode, hsig, htok, hdec, hstep]
    refine ⟨rfl, ?_, ?_⟩
    · rw [countTokenCalls_append, countTokenCalls_append, p1, s1]
      cases hj : getBoolFlag (parseFlags args) "json" <;>
        simp [hj, countTokenCalls]
    · rw [mentions_append, mentions_append, p5]
      cases hj : getBoolFlag (parseFlags args) "json" <;>
        simp [hj, mentions,
          show strContains "Device code expired." "expired" = true from by decide,
          show strContains "Device code expired. Run paywalls register again."
            "expired" = true from by decide]
  · intro htok
    have hdec :=
      pollLoop_continuing_decomp (getBoolFlag (parseFlags args) "json")
        (loadConfig { baseUrl := getStrFlag (parseFlags args) "base-url" }
          w.env w.credFile).baseUrl
        ts1 (TokenResult.failure s "access_denied" :: rest)
        (d.interval * 1000) hcont
    have hstep :=
      pollLoop_denied (getBoolFlag (parseFlags args) "json")
        (loadConfig { baseUrl := getStrFlag (parseFlags args) "base-url" }
          w.env w.credFile).baseUrl
        none (d.interval * 1000 + 5000 * slowCount ts1) s rest (by simp)
    rw [register_ok_eq args w d (by simp [hcred]) hcode, hsig, htok, hdec, hstep]
    refine ⟨rfl, ?_, ?_⟩
    · rw [countTokenCalls_append, countTokenCalls_append, p1, s1]
      cases hj : getBoolFlag (parseFlags args) "json" <;>
        simp [hj, countTokenCalls]
    · rw [mentions_append, mentions_append, p5]
      cases hj : getBoolFlag (parseFlags args) "json" <;>
        simp [hj, mentions,
          show strContains "Authorization denied." "denied" = true from by decide,
          show strContains "Authorization denied. Contact support if this is unexpected."
            "denied" = true from by decide]

/-- Concrete run for C4: one pending response, then expired_token. -/
theorem register_expired_denied_terminal_witness :
    allContinuing [pendingTok] = true ∧
    (register [] sampleWorldC4).2 = Outcome.exited 1 ∧
    countTokenCalls (register [] sampleWorldC4).1 = 2 ∧
    mentions (register [] sampleWorldC4).1 "expired" = true := by
  have h := (register_expired_denied_terminal [] sampleWorldC4 sampleDevice 400
    [pendingTok] [TokenResult.success "K" "A"] (by decide) rfl rfl (by decide)).1
    (by decide)
  exact ⟨by decide, h.1, by simpa using h.2.1, h.2.2⟩

/-- C5: an interrupt during the polling loop (fired at any iteration the
loop actually reaches while still pending) exits with status 130 and writes
no credentials; and, whatever the run, without a success response the
credential store is never written. -/
theorem register_sigint_no_write (args : List String) (w : World)
    (d : DeviceCodeResponse) (k : Nat)
    (hcred : hasCredentials w.env w.credFile = false)
    (hcode : w.codeRes = DeviceCodeResult.ok d) :
    (w.sigintAt = some k → k ≤ w.tokens.length →
      allContinuing (w.tokens.take k) = true →
      (register args w).2 = Outcome.exited 130 ∧
      savesOf (register args w).1 = []) ∧
    (∀ args' : List String, ∀ w' : World,
      w'.tokens.all (fun r => !isSuccess r) = true →
      savesOf (register args' w').1 = []) := by
  constructor
  · intro hsig hlen hcont
    obtain ⟨p1, p2, p3, p4, p5⟩ := registerPre_stats args w d
    obtain ⟨o1, o2⟩ :=
      pollLoop_sigint (getBoolFlag (parseFlags args) "json")
        (loadConfig { baseUrl := getStrFlag (parseFlags args) "base-url" }
          w.env w.credFile).baseUrl
        k w.tokens (d.interval * 1000) hlen hcont
    rw [register_ok_eq args w d (by simp [hcred]) hcode, hsig]
    refine ⟨o1, ?_⟩
    rw [savesOf_append, p2, o2]
    rfl
  · intro args' w' hno
    by_cases hg : (!getBoolFlag (parseFlags args') "force" &&
        hasCredentials w'.env w'.credFile) = true
    · cases hj : getBoolFlag (parseFlags args') "json" <;>
        simp [register, hg, hj, savesOf]
    · have hguard : (!getBoolFlag (parseFlags args') "force" &&
          hasCredentials w'.env w'.credFile) = false := by
        simpa using hg
      cases hc : w'.codeRes with
      | netErr =>
        cases hj : getBoolFlag (parseFlags args') "json" <;>
          simp [register, hguard, hc, hj, savesOf]
      | failure st =>
        cases hj : getBoolFlag (parseFlags args') "json" <;>
          simp [register, hguard, hc, hj, savesOf]
      | ok d' =>
        rw [register_ok_eq args' w' d' hguard hc]
        rw [savesOf_append, (registerPre_stats args' w' d').2.1,
          pollLoop_no_success_saves (getBoolFlag (parseFlags args') "json")
            (loadConfig { baseUrl := getStrFlag (parseFlags args') "base-url" }
              w'.env w'.credFile).baseUrl
            w'.tokens w'.sigintAt (d'.interval * 1000) hno]
        rfl

/-- Concrete run for C5: SIGINT fires at the second poll iteration. -/
theorem register_sigint_no_write_witness :
    sampleWorldC5.sigintAt = some 1 ∧
    (register [] sampleWorldC5).2 = Outcome.exited 130 ∧
    savesOf (register [] sampleWorldC5).1 = [] := by
  have h := (register_sigint_no_write [] sampleWorldC5 sampleDevice 1
    (by decide) rfl).1 rfl (by decide) (by decide)
  exact ⟨rfl, h.1, h.2⟩

/-- C6: a connection-level failure of one token-exchange call does not end
the flow: the outcome is that of the remaining responses, the failing
iteration still counted one call, and when any response follows, the next
poll attempt is issued after a wait of the unchanged interval. -/
theorem pollLoop_network_error_continues (j : Bool) (b : String) (i : Nat)
    (rs : List TokenResult) :
    (pollLoop j b none i (TokenResult.netErr :: rs)).2 =
      (pollLoop j b none i rs).2 ∧
    countTokenCalls (pollLoop j b none i (TokenResult.netErr :: rs)).1 =
      countTokenCalls (pollLoop j b none i rs).1 + 1 ∧
    (rs ≠ [] →
      (pollLoop j b none i rs).1.take 2 = [Event.sleep i, Event.tokenCall]) := by
  refine ⟨?_, ?_, ?_⟩
  · rw [pollLoop_netErr j b none i rs (by simp)]
    simp [sigDec]
  · rw [pollLoop_netErr j b none i rs (by simp)]
    simp only [sigDec]
    cases j <;> simp [countTokenCalls]
  · intro hne
    cases rs with
    | nil => exact absurd rfl hne
    | cons r rest =>
      cases r with
      | netErr =>
        rw [pollLoop_netErr j b none i rest (by simp)]
        rfl
      | success key acc =>
        rw [pollLoop_success j b none i key acc rest (by simp)]
        rfl
      | failure s e =>
        by_cases hp : s = 428 ∧ e = "authorization_pending"
        · obtain ⟨rfl, rfl⟩ := hp
          rw [pollLoop_pending j b none i rest (by simp)]
          rfl
        · by_cases hsd : s = 429 ∧ e = "slow_down"
          · obtain ⟨rfl, rfl⟩ := hsd
            rw [pollLoop_slow j b none i rest (by simp)]
            rfl
          · by_cases he : e = "expired_token"
            · subst he
              rw [pollLoop_expired j b none i s rest (by simp)]
              rfl
            · by_cases hd : e = "access_denied"
              · subst hd
                rw [pollLoop_denied j b none i s rest (by simp)]
                rfl
              · rw [pollLoop_unknown j b none i s e rest (by simp) hp hsd he hd]
                rfl

/-- Concrete run for C6: a network error followed by a pending response. -/
theorem pollLoop_network_error_continues_witness :
    (pollLoop true "x" none 500 (TokenResult.netErr :: [pendingTok])).2 =
      (pollLoop true "x" none 500 [pendingTok]).2 ∧
    countTokenCalls (pollLoop true "x" none 500 (TokenResult.netErr :: [pendingTok])).1 =
      countTokenCalls (pollLoop true "x" none 500 [pendingTok]).1 + 1 ∧
    (pollLoop true "x" none 500 [pendingTok]).1.take 2 =
      [Event.sleep 500, Event.tokenCall] := by
  have h := pollLoop_network_error_continues true "x" 500 [pendingTok]
  exact ⟨h.1, h.2.1, h.2.2 (by simp)⟩

/-- C7: when the first token response is a success, register saves exactly
the api key and account id the endpoint returned together with the base URL
in use, and in machine mode both the pending and the authorized status
records are emitted; the run returns normally. -/
theorem register_first_success_writes (args : List String) (w : World)
    (d : DeviceCodeResponse) (key acc : String) (rest : List TokenResult)
    (hj : getBoolFlag (parseFlags args) "json" = true)
    (hcred : hasCredentials w.env w.credFile = false)
    (hcode : w.codeRes = DeviceCodeResult.ok d)
    (hsig : w.sigintAt = none)
    (htok : w.tokens = TokenResult.success key acc :: rest) :
    savesOf (register args w).1 =
      [⟨key, acc,
        (loadConfig { baseUrl := getStrFlag (parseFlags args) "base-url" }
          w.env w.credFile).baseUrl⟩] ∧
    Event.jsonPending d.user_code d.verification_uri_complete d.expires_in ∈
      (register args w).1 ∧
    Event.jsonAuthorized key acc ∈ (register args w).1 ∧
    (register args w).2 = Outcome.returned := by
  obtain ⟨p1, p2, p3, p4, p5⟩ := registerPre_stats args w d
  have hstep :=
    pollLoop_success (getBoolFlag (parseFlags args) "json")
      (loadConfig { baseUrl := getStrFlag (parseFlags args) "base-url" }
        w.env w.credFile).baseUrl
      none (d.interval * 1000) key acc rest (by simp)
  rw [register_ok_eq args w d (by simp [hcred]) hcode, hsig, htok, hstep]
  refine ⟨?_, ?_, ?_, rfl⟩
  · rw [savesOf_append, p2]
    simp [hj, savesOf]
  · simp only [List.mem_append]
    exact Or.inl (registerPre_jsonPending args w d hj)
  · simp [hj, List.mem_append]

/-- Concrete run for C7: an immediate success in machine mode. -/
theorem register_first_success_writes_witness :
    getBoolFlag (parseFlags ["--json"]) "json" = true ∧
    savesOf (register ["--json"] sampleWorldC7).1 =
      [⟨"K", "A", "https://api.paywalls.net"⟩] ∧
    Event.jsonPending "uc" "vuc" 900 ∈ (register ["--json"] sampleWorldC7).1 ∧
    Event.jsonAuthorized "K" "A" ∈ (register ["--json"] sampleWorldC7).1 ∧
    (register ["--json"] sampleWorldC7).2 = Outcome.returned := by
  have h := register_first_success_writes ["--json"] sampleWorldC7 sampleDevice
    "K" "A" [] (by decide) (by decide) rfl rfl rfl
  refine ⟨by decide, ?_, h.2.1, h.2.2.1, h.2.2.2⟩
  rw [h.1]
  decide

/-- C8: the transport returns a normalized result for every HTTP response —
success flag, status code, parsed-JSON-or-wrapped-text body — raising to
the caller only on a connection-level error, and attaches the bearer
Authorization header exactly when an API key is configured. -/
theorem apiClient_request_normalizes (c : ApiClient) (method path : String)
    (body : Option String) (st : Nat) (ct : Option String) (jp tp sx : String) :
    (c.request method path body (FetchResult.resp st ct jp tp sx)).2 =
      Except.ok
        { ok := fetchOk st, status := st,
          data :=
            if strContains (ct.getD "") "application/json" then ApiBody.parsedJson jp
            else ApiBody.wrappedText (if tp = "" then sx else tp) } ∧
    (c.request method path body FetchResult.netErr).2 = Except.error () ∧
    (∀ net : FetchResult,
      authHeaderOf (c.request method path body net).1 =
        if c.config.apiKey = "" then none
        else some ("Bearer " ++ c.config.apiKey)) := by
  refine ⟨rfl, rfl, ?_⟩
  intro net
  cases net <;> by_cases hk : c.config.apiKey = "" <;>
    simp [ApiClient.request, ApiClient.headersFor, authHeaderOf, hk, List.find?]

/-- C9: the source loadConfig resolves only override, environment variable
and credentials file (then the built-in default); the dotenv layer the
documentation and the specification describe is absent. A key present only
in the dotenv file is therefore dropped, while the spec-side merge
loadConfigSpec keeps it. -/
theorem loadConfig_ignores_dotenv :
    loadConfig {} emptyEnv none =
      { apiKey := "", accountId := none, baseUrl := DEFAULT_BASE_URL } ∧
    loadConfigSpec {} emptyEnv ⟨some "from-dotenv", none, none⟩ none =
      { apiKey := "from-dotenv", accountId := none, baseUrl := DEFAULT_BASE_URL } ∧
    (loadConfig {} emptyEnv none).apiKey ≠
      (loadConfigSpec {} emptyEnv ⟨some "from-dotenv", none, none⟩ none).apiKey := by
  refine ⟨rfl, rfl, by decide⟩

/-- C10: hasCredentials holds exactly when the configuration resolved with
no overrides has a non-empty apiKey; consequently the already-registered
guard of register fires — exit 1, zero network calls — when only the
PAYWALLS_API_KEY environment variable is set and no credentials file
exists. -/
theorem hasCredentials_env_only_guard (env : Env) (fs : Option CredFile) :
    (hasCredentials env fs = true ↔ (loadConfig {} env fs).apiKey ≠ "") ∧
    (∀ args : List String, ∀ w : World, ∀ key : String,
      w.env.PAYWALLS_API_KEY = some key → key ≠ "" → w.credFile = none →
      getBoolFlag (parseFlags args) "force" = false →
      (register args w).2 = Outcome.exited 1 ∧
      countNetCalls (register args w).1 = 0) := by
  constructor
  · rw [← string_length_pos_iff]
    simp [hasCredentials]
  · intro args w key hk hne hcf hforce
    have hcred : hasCredentials w.env w.credFile = true := by
      simp [hasCredentials, loadConfig, loadCredentialsFile, hk, hcf]
      exact (string_length_pos_iff key).mpr hne
    exact register_guard_exits args w hcred hforce

/-- Concrete run for C10: only the environment variable set, no file. -/
theorem hasCredentials_env_only_guard_witness :
    (hasCredentials ⟨some "k1", none, none⟩ none = true ↔
      (loadConfig {} ⟨some "k1", none, none⟩ none).apiKey ≠ "") ∧
    (register [] sampleWorldC3).2 = Outcome.exited 1 ∧
    countNetCalls (register [] sampleWorldC3).1 = 0 := by
  have h := hasCredentials_env_only_guard ⟨some "k1", none, none⟩ none
  have h2 := h.2 [] sampleWorldC3 "existing-key" rfl (by decide) rfl (by decide)
  exact ⟨h.1, h2.1, h2.2⟩

end Access
